import Mathlib

/-!
Verification of the Telemetry & Broadcast Engine of the EremosSwarm
repository: a shallow embedding in Lean 4 of the signal-streaming module
(`utils/signal-stream`), the memory-logger module (`utils/memory-logger`)
and the agent-metrics module (`utils/agent-metrics`), together with proofs
of the behavioural properties stated in the specification.

Modelling conventions, applied throughout:

* JavaScript `Map` objects are modelled as insertion-ordered association
  lists (`List (String × β)`) with `mget`/`mset` mirroring `Map.get` /
  `Map.set`; JS iteration order over a `Map` is insertion order, which the
  list preserves.
* JS numbers are modelled as `ℚ` (the modules only add, divide and compare
  them; no NaN/Infinity arithmetic occurs except the `Infinity` sentinel of
  `minProcessingTime`, modelled as `Option ℚ` with `none` standing for
  `Infinity`).
* Wall-clock reads (`Date.now()`, `new Date().toISOString()`) are threaded
  in as explicit `now` parameters; in the streaming and metrics modules,
  where timestamps are only ever compared through
  `new Date(s).getTime()`, an ISO timestamp string is represented directly
  by its parsed epoch-millisecond value.
* Randomly generated identifier strings (`stream_…`, `mem_…`, `sig_…`,
  `evt_…`) and the base64 content fingerprint of `generateSignalHash` are
  functions of the wall clock and `Math.random()`; they are passed in as
  parameters or omitted where no modelled operation ever inspects them.
-/

namespace EremosSwarm

/-! ## Generic helpers shared by the three modules -/

/-- `Map.get` on an insertion-ordered association list. -/
def mget (m : List (String × β)) (k : String) : Option β :=
  match m with
  | [] => none
  | (k', v) :: rest => if k' = k then some v else mget rest k

/-- `Map.set` on an insertion-ordered association list: replaces the value in
place if the key is present, otherwise appends the new binding (JS `Map.set`
keeps the original insertion position of an existing key). -/
def mset (m : List (String × β)) (k : String) (v : β) : List (String × β) :=
  match m with
  | [] => [(k, v)]
  | (k', v') :: rest => if k' = k then (k, v) :: rest else (k', v') :: mset rest k v

/-- The bounded-append pattern shared by the memory-logger collections:
`entries.push(entry); if (entries.length > cap) entries.splice(0,
entries.length - cap)` — append, then drop oldest entries down to `cap`. -/
def boundedAppend (cap : ℕ) (xs : List α) (x : α) : List α :=
  let ys := xs ++ [x]
  if cap < ys.length then ys.drop (ys.length - cap) else ys

/-- The one-step variant used by the bounded buffers that evict with
`shift()`: `buf.push(x); if (buf.length > cap) buf.shift()`. -/
def boundedPushShift (cap : ℕ) (xs : List α) (x : α) : List α :=
  let ys := xs ++ [x]
  if cap < ys.length then ys.drop 1 else ys

/-- `Array.prototype.slice(-n)`: the last `n` elements (all of them when the
array is shorter). -/
def lastN (n : ℕ) (xs : List α) : List α :=
  xs.drop (xs.length - n)

/-- Stable insertion used by `sortByDescKey`. -/
def insertByDescKey (key : α → ℤ) (x : α) : List α → List α
  | [] => [x]
  | y :: ys => if key y ≤ key x then x :: y :: ys else y :: insertByDescKey key x ys

/-- A stable sort placing larger keys first: the model of
`arr.sort((a, b) => key(b) - key(a))` (JS `Array.prototype.sort` is stable). -/
def sortByDescKey (key : α → ℤ) : List α → List α
  | [] => []
  | x :: xs => insertByDescKey key x (sortByDescKey key xs)

theorem mem_insertByDescKey (key : α → ℤ) (x : α) (l : List α) (a : α) :
    a ∈ insertByDescKey key x l ↔ a = x ∨ a ∈ l := by
  induction l with
  | nil => simp [insertByDescKey]
  | cons y ys ih =>
    by_cases h : key y ≤ key x
    · simp [insertByDescKey, h]
    · simp [insertByDescKey, h, ih]
      tauto

theorem mem_sortByDescKey (key : α → ℤ) (l : List α) (a : α) :
    a ∈ sortByDescKey key l ↔ a ∈ l := by
  induction l with
  | nil => simp [sortByDescKey]
  | cons x xs ih =>
    simp [sortByDescKey, mem_insertByDescKey, ih]

/-! ## Signal-streaming module (`utils/signal-stream`)

The subscriber's Express `response` sink is modelled by a single boolean
`writeOk`: whether writes to the sink succeed.  This captures exactly the
"sink always succeeds" / "sink always throws" subscribers the specification
quantifies over. -/

/-- The `metadata` classification block of a `StreamedSignal`. -/
structure SignalMetadata where
  priority : String
  category : String
  source : String
  deriving DecidableEq

/-- `StreamedSignal` (`utils/signal-stream`).  `timestamp` is the parsed
epoch-millisecond value of the ISO string (the module only reads it through
`new Date(ts).getTime()`); the free-form `details` payload is omitted — no
modelled operation inspects it. -/
structure StreamedSignal where
  id : String
  agent : String
  type : String
  glyph : String
  hash : String
  timestamp : ℤ
  confidence : Option ℚ
  metadata : Option SignalMetadata
  deriving DecidableEq

/-- `SignalStreamFilter`: all criteria optional. -/
structure SignalStreamFilter where
  agentName : Option String := none
  agentId : Option String := none
  signalType : Option String := none
  category : Option String := none
  priority : Option String := none
  minConfidence : Option ℚ := none
  deriving DecidableEq

/-- `SignalStreamClient`.  `writeOk` models whether `response.write` succeeds
(the only behaviour of the sink the module observes). -/
structure SignalStreamClient where
  id : String
  writeOk : Bool
  filter : Option SignalStreamFilter
  lastUpdate : ℤ
  signalCount : ℕ
  deriving DecidableEq

/-- One string criterion compared against a required string field:
`if (filter.x && signal.y !== filter.x) return false`.  Under JS truthiness
an empty-string criterion is falsy and therefore skipped. -/
def passStrEq (crit : Option String) (value : String) : Bool :=
  match crit with
  | none => true
  | some v => v == "" || value == v

/-- One string criterion compared against an optional field reached through
`signal.metadata?.…`: an absent metadata block yields `undefined`, which is
`!==` any truthy criterion. -/
def passStrEqOpt (crit : Option String) (value : Option String) : Bool :=
  match crit with
  | none => true
  | some v => v == "" || value == some v

/-- `if (filter.minConfidence !== undefined && (signal.confidence ===
undefined || signal.confidence < filter.minConfidence)) return false` —
note the `!== undefined` check, so a `minConfidence` of `0` is enforced. -/
def passMinConfidence (crit : Option ℚ) (confidence : Option ℚ) : Bool :=
  match crit with
  | none => true
  | some m =>
    match confidence with
    | none => false
    | some c => decide (m ≤ c)

/-- `shouldSendSignalToClient` (`utils/signal-stream`): a client with no
filter receives everything; otherwise every criterion block must pass. -/
def shouldSendSignalToClient (signal : StreamedSignal) (client : SignalStreamClient) : Bool :=
  match client.filter with
  | none => true
  | some filter =>
    passStrEq filter.agentName signal.agent &&
    passStrEqOpt filter.agentId (signal.metadata.map SignalMetadata.source) &&
    passStrEq filter.signalType signal.type &&
    passStrEqOpt filter.category (signal.metadata.map SignalMetadata.category) &&
    passStrEqOpt filter.priority (signal.metadata.map SignalMetadata.priority) &&
    passMinConfidence filter.minConfidence signal.confidence

/-- The throw-away client `getRecentSignals` builds to reuse the filter
logic (`id: 'filter', response: null, …`). -/
def mockFilterClient (filter : SignalStreamFilter) : SignalStreamClient :=
  { id := "filter", writeOk := true, filter := some filter, lastUpdate := 0, signalCount := 0 }

def MAX_RECENT_SIGNALS : ℕ := 1000

/-- `getRecentSignals(filter?, limit?)`: filter the buffer, sort newest
first, then `if (limit) return …slice(0, limit)` — a `limit` of `0` is falsy
and returns the whole list. -/
def getRecentSignals (stored : List StreamedSignal)
    (filter : Option SignalStreamFilter) (limit : Option ℕ) : List StreamedSignal :=
  let filteredSignals :=
    match filter with
    | none => stored
    | some f => stored.filter (fun s => shouldSendSignalToClient s (mockFilterClient f))
  let sorted := sortByDescKey StreamedSignal.timestamp filteredSignals
  match limit with
  | none => sorted
  | some n => if n = 0 then sorted else sorted.take n

/-- `broadcastSignalToClients`, iterating the registry in insertion order.
Returns the surviving registry and, in iteration order, the clients whose
sink accepted the write.  A matching client whose write throws is
unregistered on the spot (`response.end()` is wrapped in its own try/catch
in the source and absorbed); the per-client try/catch means no error ever
escapes the loop, so the function is total. -/
def broadcastSignalToClients (signal : StreamedSignal) (now : ℤ) :
    List SignalStreamClient → List SignalStreamClient × List SignalStreamClient
  | [] => ([], [])
  | c :: rest =>
    let r := broadcastSignalToClients signal now rest
    if shouldSendSignalToClient signal c then
      if c.writeOk then
        ({ c with lastUpdate := now, signalCount := c.signalCount + 1 } :: r.1, c :: r.2)
      else
        r
    else
      (c :: r.1, r.2)

/-- The module state of `utils/signal-stream`: the shared recent-signal
buffer and the subscriber registry.  (The `signalListeners` array holds
external callbacks whose invocation is wrapped in try/catch and does not
touch this state; it is not modelled.) -/
structure SignalStreamState where
  recentSignals : List StreamedSignal
  signalStreamClients : List SignalStreamClient
  deriving DecidableEq

/-- The caller-supplied fields of `emitSignalToStream`'s argument. -/
structure SignalInput where
  agent : String
  type : String
  glyph : String
  hash : String
  timestamp : ℤ
  confidence : Option ℚ
  metadata : Option SignalMetadata
  deriving DecidableEq

/-- `emitSignalToStream`: stamp a fresh broadcast id, append to the bounded
recent buffer (capacity `MAX_RECENT_SIGNALS`, `shift()` eviction), then
broadcast to subscribers.  Returns the new state, the stored record and the
clients it was delivered to. -/
def emitSignalToStream (st : SignalStreamState) (freshId : String)
    (signal : SignalInput) (now : ℤ) :
    SignalStreamState × StreamedSignal × List SignalStreamClient :=
  let streamedSignal : StreamedSignal :=
    { id := freshId, agent := signal.agent, type := signal.type, glyph := signal.glyph,
      hash := signal.hash, timestamp := signal.timestamp,
      confidence := signal.confidence, metadata := signal.metadata }
  let buf := boundedPushShift MAX_RECENT_SIGNALS st.recentSignals streamedSignal
  let r := broadcastSignalToClients streamedSignal now st.signalStreamClients
  ({ recentSignals := buf, signalStreamClients := r.1 }, streamedSignal, r.2)

/-- `unregisterSignalStreamClient`: drop the client with the given id
(`response.end()` failures are absorbed). -/
def unregisterSignalStreamClient (clients : List SignalStreamClient)
    (clientId : String) : List SignalStreamClient :=
  clients.filter (fun c => c.id != clientId)

/-- The filter predicate exactly as the specification words it (for
comparison against the source's `shouldSendSignalToClient`): every *present*
criterion must hold — exact equality for the five string criteria, an
inclusive lower bound on a present confidence for `minConfidence` — and an
absent criterion is a wildcard. -/
def specFilterMatches (filter : SignalStreamFilter) (signal : StreamedSignal) : Bool :=
  (match filter.agentName with
   | none => true
   | some v => signal.agent == v) &&
  (match filter.agentId with
   | none => true
   | some v => signal.metadata.map SignalMetadata.source == some v) &&
  (match filter.signalType with
   | none => true
   | some v => signal.type == v) &&
  (match filter.category with
   | none => true
   | some v => signal.metadata.map SignalMetadata.category == some v) &&
  (match filter.priority with
   | none => true
   | some v => signal.metadata.map SignalMetadata.priority == some v) &&
  (match filter.minConfidence with
   | none => true
   | some m =>
     match signal.confidence with
     | none => false
     | some c => decide (m ≤ c))

/-- The amended filter semantics: as `specFilterMatches`, except that a
present string criterion equal to the empty string is also a wildcard
(matching the JS truthiness checks of the source). -/
def specFilterMatchesEmptyWildcard (filter : SignalStreamFilter) (signal : StreamedSignal) : Bool :=
  (match filter.agentName with
   | none => true
   | some v => v == "" || signal.agent == v) &&
  (match filter.agentId with
   | none => true
   | some v => v == "" || signal.metadata.map SignalMetadata.source == some v) &&
  (match filter.signalType with
   | none => true
   | some v => v == "" || signal.type == v) &&
  (match filter.category with
   | none => true
   | some v => v == "" || signal.metadata.map SignalMetadata.category == some v) &&
  (match filter.priority with
   | none => true
   | some v => v == "" || signal.metadata.map SignalMetadata.priority == some v) &&
  (match filter.minConfidence with
   | none => true
   | some m =>
     match signal.confidence with
     | none => false
     | some c => decide (m ≤ c))

/-! ## Memory-logger module (`utils/memory-logger`, types from `types/memory`)

Timestamps in this module are kept as ISO strings (the module compares them
lexicographically and with `startsWith`); every operation takes the current
ISO timestamp as an explicit `now` parameter.  The random `id` of a
`MemoryEntry`, its `generateSignalHash` fingerprint and the `signalId` /
`eventId` tags are time-and-randomness-derived strings that no modelled
operation inspects; they are omitted from the records.  The `recordCall`
side counter lives in a `./metrics` module that is absent from the source
tree and touches none of the state modelled here. -/

inductive AgentStatus
  | active
  | idle
  | processing
  | error
  deriving DecidableEq

inductive EventOutcome
  | triggered
  | ignored
  | error
  deriving DecidableEq

inductive MemoryEntryType
  | event_processed
  | signal_emitted
  | state_change
  | error
  deriving DecidableEq

/-- `AgentState` (`types/memory`).  `metadata` is a free-form string map. -/
structure AgentState where
  agentId : String
  agentName : String
  currentStatus : AgentStatus
  lastActivity : String
  totalEventsProcessed : ℕ
  totalSignalsEmitted : ℕ
  triggerCount : ℕ
  uptime : ℚ
  metadata : List (String × String)
  deriving DecidableEq

/-- `Partial<AgentState>` as passed to `updateAgentState`: every field
optional.  (A supplied `lastActivity` is listed for shape-faithfulness but
is always overridden by the merge, which stamps `lastActivity` last.) -/
structure AgentStateUpdates where
  agentId : Option String := none
  agentName : Option String := none
  currentStatus : Option AgentStatus := none
  lastActivity : Option String := none
  totalEventsProcessed : Option ℕ := none
  totalSignalsEmitted : Option ℕ := none
  triggerCount : Option ℕ := none
  uptime : Option ℚ := none
  metadata : Option (List (String × String)) := none
  deriving DecidableEq

/-- The `data: any` payloads actually passed to `logMemoryEntry` by the
module's four call sites. -/
inductive MemoryData
  | initialized (state : AgentState)
  | stateChange (previous : AgentStatus) (next : AgentStatus) (updates : AgentStateUpdates)
  | signalEmitted (signalType : String) (success : Bool) (confidence : Option ℚ)
  | eventProcessed (eventType : String) (outcome : EventOutcome) (processingTime : ℚ)
  deriving DecidableEq

/-- `MemoryEntry` (`types/memory`), minus the random `id` and the
`generateSignalHash` fingerprint (see the module note above). -/
structure MemoryEntry where
  agentId : String
  timestamp : String
  type : MemoryEntryType
  data : MemoryData
  deriving DecidableEq

/-- `SignalMemory` (`types/memory`), minus the time-derived `signalId`;
`details` is a free-form string map. -/
structure SignalMemory where
  agentId : String
  signalType : String
  glyph : String
  timestamp : String
  confidence : Option ℚ
  success : Bool
  processingTime : ℚ
  details : Option (List (String × String))
  deriving DecidableEq

/-- `EventMemory` (`types/memory`), minus the time-derived `eventId`; the
free-form `data` payload is carried as an opaque string. -/
structure EventMemory where
  agentId : String
  eventType : String
  timestamp : String
  processed : Bool
  processingTime : ℚ
  outcome : EventOutcome
  data : String
  deriving DecidableEq

/-- The four module-level `Map`s of `utils/memory-logger`. -/
structure MemoryStore where
  agentStates : List (String × AgentState)
  memoryEntries : List (String × List MemoryEntry)
  signalMemories : List (String × List SignalMemory)
  eventMemories : List (String × List EventMemory)
  deriving DecidableEq

def emptyMemoryStore : MemoryStore :=
  { agentStates := [], memoryEntries := [], signalMemories := [], eventMemories := [] }

/-- `logMemoryEntry`: build the entry, append it to the agent's collection
bounded at 1000, store the collection back. -/
def logMemoryEntry (st : MemoryStore) (now : String) (agentId : String)
    (type : MemoryEntryType) (data : MemoryData) : MemoryStore × MemoryEntry :=
  let entry : MemoryEntry := { agentId := agentId, timestamp := now, type := type, data := data }
  let entries := boundedAppend 1000 ((mget st.memoryEntries agentId).getD []) entry
  ({ st with memoryEntries := mset st.memoryEntries agentId entries }, entry)

/-- `initializeAgentState`: create the idle state and empty collections only
when the agent is unknown, logging an `initialized` state-change entry;
otherwise return the existing state untouched. -/
def initializeAgentState (st : MemoryStore) (now : String)
    (agentId agentName : String) : MemoryStore × AgentState :=
  match mget st.agentStates agentId with
  | some s => (st, s)
  | none =>
    let state : AgentState :=
      { agentId := agentId, agentName := agentName, currentStatus := AgentStatus.idle,
        lastActivity := now, totalEventsProcessed := 0, totalSignalsEmitted := 0,
        triggerCount := 0, uptime := 0, metadata := [] }
    let st1 : MemoryStore :=
      { st with agentStates := mset st.agentStates agentId state,
                memoryEntries := mset st.memoryEntries agentId [],
                signalMemories := mset st.signalMemories agentId [],
                eventMemories := mset st.eventMemories agentId [] }
    let st2 := (logMemoryEntry st1 now agentId MemoryEntryType.state_change
      (MemoryData.initialized state)).1
    (st2, state)

/-- `{ ...currentState, ...updates, lastActivity: now }`: each supplied
field overrides, and `lastActivity` is stamped last, overriding even a
supplied one. -/
def applyStateUpdates (s : AgentState) (u : AgentStateUpdates) (now : String) : AgentState :=
  { agentId := u.agentId.getD s.agentId,
    agentName := u.agentName.getD s.agentName,
    currentStatus := u.currentStatus.getD s.currentStatus,
    lastActivity := now,
    totalEventsProcessed := u.totalEventsProcessed.getD s.totalEventsProcessed,
    totalSignalsEmitted := u.totalSignalsEmitted.getD s.totalSignalsEmitted,
    triggerCount := u.triggerCount.getD s.triggerCount,
    uptime := u.uptime.getD s.uptime,
    metadata := u.metadata.getD s.metadata }

/-- The body of `updateAgentState` once the current state has been found:
merge, store, and log a `state_change` entry with the before/after status. -/
def updateAgentStateFound (st : MemoryStore) (now : String) (agentId : String)
    (cur : AgentState) (u : AgentStateUpdates) : MemoryStore × AgentState :=
  let newState := applyStateUpdates cur u now
  let st1 : MemoryStore := { st with agentStates := mset st.agentStates agentId newState }
  let st2 := (logMemoryEntry st1 now agentId MemoryEntryType.state_change
    (MemoryData.stateChange cur.currentStatus newState.currentStatus u)).1
  (st2, newState)

/-- `updateAgentState`: throws (`Except.error`) when the agent was never
initialized — the throw happens before any map is touched. -/
def updateAgentState (st : MemoryStore) (now : String) (agentId : String)
    (u : AgentStateUpdates) : Except String (MemoryStore × AgentState) :=
  match mget st.agentStates agentId with
  | none => Except.error ("Agent " ++ agentId ++ " state not initialized")
  | some cur => Except.ok (updateAgentStateFound st now agentId cur u)

/-- A caller-level view of `updateAgentState` that makes the absence of side
effects on the thrown path explicit: the store that results from catching
the exception is the store passed in. -/
def updateAgentStateRun (st : MemoryStore) (now : String) (agentId : String)
    (u : AgentStateUpdates) : MemoryStore × Except String AgentState :=
  match updateAgentState st now agentId u with
  | Except.ok r => (r.1, Except.ok r.2)
  | Except.error e => (st, Except.error e)

/-- `logSignalEmission`: append to the 500-bounded per-agent signal history,
bump `totalSignalsEmitted` via `updateAgentState` when the state exists
(the call is guarded by `if (state)`, so the throwing branch is
unreachable), and log a `signal_emitted` memory entry. -/
def logSignalEmission (st : MemoryStore) (now : String) (agentId : String)
    (signalType glyph : String) (success : Bool) (processingTime : ℚ)
    (confidence : Option ℚ) (details : Option (List (String × String))) :
    MemoryStore × SignalMemory :=
  let signalMemory : SignalMemory :=
    { agentId := agentId, signalType := signalType, glyph := glyph, timestamp := now,
      confidence := confidence, success := success, processingTime := processingTime,
      details := details }
  let signals := boundedAppend 500 ((mget st.signalMemories agentId).getD []) signalMemory
  let st1 : MemoryStore := { st with signalMemories := mset st.signalMemories agentId signals }
  let st2 :=
    match mget st1.agentStates agentId with
    | none => st1
    | some state =>
      (updateAgentStateFound st1 now agentId state
        { totalSignalsEmitted := some (state.totalSignalsEmitted + 1),
          currentStatus := some AgentStatus.active }).1
  let st3 := (logMemoryEntry st2 now agentId MemoryEntryType.signal_emitted
    (MemoryData.signalEmitted signalType success confidence)).1
  (st3, signalMemory)

/-- `logEventProcessing`: append to the 500-bounded per-agent event history,
bump `totalEventsProcessed` (and `triggerCount` on a `triggered` outcome)
when the state exists, and log an `event_processed` memory entry. -/
def logEventProcessing (st : MemoryStore) (now : String) (agentId : String)
    (eventType : String) (eventData : String) (outcome : EventOutcome)
    (processingTime : ℚ) : MemoryStore × EventMemory :=
  let eventMemory : EventMemory :=
    { agentId := agentId, eventType := eventType, timestamp := now,
      processed := outcome != EventOutcome.error, processingTime := processingTime,
      outcome := outcome, data := eventData }
  let events := boundedAppend 500 ((mget st.eventMemories agentId).getD []) eventMemory
  let st1 : MemoryStore := { st with eventMemories := mset st.eventMemories agentId events }
  let st2 :=
    match mget st1.agentStates agentId with
    | none => st1
    | some state =>
      (updateAgentStateFound st1 now agentId state
        { totalEventsProcessed := some (state.totalEventsProcessed + 1),
          triggerCount := some (if outcome = EventOutcome.triggered
            then state.triggerCount + 1 else state.triggerCount),
          currentStatus := some (if outcome = EventOutcome.error
            then AgentStatus.error else AgentStatus.active) }).1
  let st3 := (logMemoryEntry st2 now agentId MemoryEntryType.event_processed
    (MemoryData.eventProcessed eventType outcome processingTime)).1
  (st3, eventMemory)

/-- `Math.round(x * 100) / 100` (JS `Math.round` rounds half toward
positive infinity). -/
def jsRound2 (q : ℚ) : ℚ :=
  (⌊q * 100 + 1 / 2⌋ : ℚ) / 100

/-- The `statistics` block of `AgentMemorySnapshot`. -/
structure SnapshotStatistics where
  signalsToday : ℕ
  eventsToday : ℕ
  avgProcessingTime : ℚ
  successRate : ℚ
  deriving DecidableEq

/-- `AgentMemorySnapshot` (`types/memory`). -/
structure AgentMemorySnapshot where
  agentId : String
  agentName : String
  snapshotTime : String
  state : AgentState
  recentSignals : List SignalMemory
  recentEvents : List EventMemory
  memoryEntries : List MemoryEntry
  statistics : SnapshotStatistics
  deriving DecidableEq

/-- `generateMemorySnapshot`: `null` for an unknown agent; otherwise the
last 10 signals, last 10 events and last 20 memory entries, with today's
counts and rounded average/success statistics.  The success-rate default
when no recent signals exist is `1.0`. -/
def generateMemorySnapshot (st : MemoryStore) (now : String) (agentId : String) :
    Option AgentMemorySnapshot :=
  match mget st.agentStates agentId with
  | none => none
  | some state =>
    let recentSignals := lastN 10 ((mget st.signalMemories agentId).getD [])
    let recentEvents := lastN 10 ((mget st.eventMemories agentId).getD [])
    let entries := lastN 20 ((mget st.memoryEntries agentId).getD [])
    let today := (now.splitOn "T").headD ""
    let todaySignals := recentSignals.filter (fun s => s.timestamp.startsWith today)
    let todayEvents := recentEvents.filter (fun e => e.timestamp.startsWith today)
    let avgProcessingTime : ℚ :=
      if 0 < recentEvents.length
      then (recentEvents.map EventMemory.processingTime).sum / recentEvents.length
      else 0
    let successRate : ℚ :=
      if 0 < recentSignals.length
      then ((recentSignals.filter SignalMemory.success).length : ℚ) / recentSignals.length
      else 1
    some
      { agentId := agentId, agentName := state.agentName, snapshotTime := now,
        state := state, recentSignals := recentSignals, recentEvents := recentEvents,
        memoryEntries := entries,
        statistics :=
          { signalsToday := todaySignals.length, eventsToday := todayEvents.length,
            avgProcessingTime := jsRound2 avgProcessingTime,
            successRate := jsRound2 successRate } }

/-- Lexicographic string order used for the ISO-timestamp comparisons of
`cleanupMemory` (`entry.timestamp >= cutoffTime`). -/
def strGe (a b : String) : Bool :=
  !(a < b)

/-- `cleanupMemory`, taking the already-computed cutoff ISO string: filter
every per-agent collection down to entries at or after the cutoff.  Only
the generic memory-entry pass contributes to the returned count — the
signal and event passes discard without counting.  `agentStates` is never
touched. -/
def cleanupMemory (st : MemoryStore) (cutoffTime : String) : MemoryStore × ℕ :=
  let cleanedPairs := st.memoryEntries.map
    (fun p => (p.1, p.2.filter (fun e => strGe e.timestamp cutoffTime)))
  let cleanedCount :=
    (st.memoryEntries.zip cleanedPairs).foldl
      (fun acc q => acc + (q.1.2.length - q.2.2.length)) 0
  let st1 : MemoryStore :=
    { st with
      memoryEntries := cleanedPairs,
      signalMemories := st.signalMemories.map
        (fun p => (p.1, p.2.filter (fun s => strGe s.timestamp cutoffTime))),
      eventMemories := st.eventMemories.map
        (fun p => (p.1, p.2.filter (fun e => strGe e.timestamp cutoffTime))) }
  (st1, cleanedCount)

/-! ## Agent-metrics module (`utils/agent-metrics`)

All timestamps in this module are only ever produced by `Date.now()` /
`new Date().toISOString()` and consumed through `new Date(s).getTime()`, so
they are represented by their epoch-millisecond value (`ℚ`); each recording
operation takes the current time as an explicit `nowMs` parameter.
`minProcessingTime` is initialized to `Infinity`, modelled as `none`. -/

/-- `PerformanceEntry` (`utils/agent-metrics`). -/
structure PerformanceEntry where
  timestamp : ℚ
  eventType : String
  processingTime : ℚ
  success : Bool
  signalType : Option String
  confidence : Option ℚ
  deriving DecidableEq

/-- `AgentMetrics` (`utils/agent-metrics`). -/
structure AgentMetrics where
  agentName : String
  totalEvents : ℕ
  totalSignals : ℕ
  successfulSignals : ℕ
  failedSignals : ℕ
  averageProcessingTime : ℚ
  minProcessingTime : Option ℚ
  maxProcessingTime : ℚ
  successRate : ℚ
  signalsPerHour : ℚ
  eventsPerHour : ℚ
  lastActivity : Option ℚ
  uptime : ℚ
  startTime : ℚ
  errorCount : ℕ
  signalTypes : List (String × ℕ)
  recentPerformance : List PerformanceEntry
  deriving DecidableEq

/-- The fresh metrics record created by `initializeAgentMetrics`. -/
def freshAgentMetrics (agentName : String) (nowMs : ℚ) : AgentMetrics :=
  { agentName := agentName, totalEvents := 0, totalSignals := 0,
    successfulSignals := 0, failedSignals := 0, averageProcessingTime := 0,
    minProcessingTime := none, maxProcessingTime := 0, successRate := 0,
    signalsPerHour := 0, eventsPerHour := 0, lastActivity := none, uptime := 0,
    startTime := nowMs, errorCount := 0, signalTypes := [], recentPerformance := [] }

/-- The module-level `agentMetrics` map. -/
def MetricsStore := List (String × AgentMetrics)

/-- `initializeAgentMetrics`: create the zeroed record only if absent. -/
def initializeAgentMetrics (store : MetricsStore) (agentName : String) (nowMs : ℚ) :
    MetricsStore :=
  match mget store agentName with
  | some _ => store
  | none => mset store agentName (freshAgentMetrics agentName nowMs)

/-- `signalTypes[t] = (signalTypes[t] || 0) + 1`. -/
def bumpSignalType (m : List (String × ℕ)) (t : String) : List (String × ℕ) :=
  mset m t ((mget m t).getD 0 + 1)

/-- `updateProcessingTimeStats`: min/max by comparison (a `minProcessingTime`
of `Infinity`, i.e. `none`, is larger than everything), then the incremental
mean using `totalEvents + totalSignals` as the sample count. -/
def updateProcessingTimeStats (metrics : AgentMetrics) (processingTime : ℚ) : AgentMetrics :=
  let m1 :=
    if (match metrics.minProcessingTime with
        | none => true
        | some mn => decide (processingTime < mn)) = true
    then { metrics with minProcessingTime := some processingTime }
    else metrics
  let m2 :=
    if m1.maxProcessingTime < processingTime
    then { m1 with maxProcessingTime := processingTime }
    else m1
  let totalOperations := m2.totalEvents + m2.totalSignals
  if totalOperations = 1 then
    { m2 with averageProcessingTime := processingTime }
  else
    { m2 with averageProcessingTime :=
        (m2.averageProcessingTime * ((totalOperations : ℚ) - 1) + processingTime)
          / (totalOperations : ℚ) }

/-- `updateMetricsCalculations`: success rate only once a signal exists,
wall-clock uptime and hourly rates, and the `Infinity → 0` fix-up for
`minProcessingTime`. -/
def updateMetricsCalculations (metrics : AgentMetrics) (nowMs : ℚ) : AgentMetrics :=
  let m1 :=
    if 0 < metrics.totalSignals
    then { metrics with successRate :=
            (metrics.successfulSignals : ℚ) / (metrics.totalSignals : ℚ) }
    else metrics
  let uptimeHours := (nowMs - m1.startTime) / (1000 * 60 * 60)
  let m2 := { m1 with uptime := uptimeHours }
  let m3 :=
    if 0 < uptimeHours
    then { m2 with signalsPerHour := (m2.totalSignals : ℚ) / uptimeHours,
                   eventsPerHour := (m2.totalEvents : ℚ) / uptimeHours }
    else m2
  if m3.minProcessingTime = none
  then { m3 with minProcessingTime := some 0 }
  else m3

/-- `recordEventProcessing`: ensure the record exists, bump `totalEvents`,
update time stats on success or `errorCount` on failure, append to the
100-bounded recent-performance buffer, and recompute the derived fields. -/
def recordEventProcessing (store : MetricsStore) (agentName eventType : String)
    (processingTime : ℚ) (success : Bool) (nowMs : ℚ) : MetricsStore :=
  let store := initializeAgentMetrics store agentName nowMs
  match mget store agentName with
  | none => store
  | some metrics =>
    let m1 := { metrics with totalEvents := metrics.totalEvents + 1,
                             lastActivity := some nowMs }
    let m2 :=
      if success
      then updateProcessingTimeStats m1 processingTime
      else { m1 with errorCount := m1.errorCount + 1 }
    let entry : PerformanceEntry :=
      { timestamp := nowMs, eventType := eventType, processingTime := processingTime,
        success := success, signalType := none, confidence := none }
    let m3 := { m2 with recentPerformance :=
                  boundedPushShift 100 m2.recentPerformance entry }
    let m4 := updateMetricsCalculations m3 nowMs
    mset store agentName m4

/-- `recordSignalEmission`: bump `totalSignals` and the per-type counter,
update success/failure tallies and time stats, append to the recent buffer,
and recompute the derived fields. -/
def recordSignalEmission (store : MetricsStore) (agentName signalType : String)
    (processingTime : ℚ) (success : Bool) (confidence : Option ℚ) (nowMs : ℚ) :
    MetricsStore :=
  let store := initializeAgentMetrics store agentName nowMs
  match mget store agentName with
  | none => store
  | some metrics =>
    let m1 := { metrics with totalSignals := metrics.totalSignals + 1,
                             lastActivity := some nowMs }
    let m2 :=
      if success
      then updateProcessingTimeStats
        { m1 with successfulSignals := m1.successfulSignals + 1 } processingTime
      else { m1 with failedSignals := m1.failedSignals + 1,
                     errorCount := m1.errorCount + 1 }
    let m3 := { m2 with signalTypes := bumpSignalType m2.signalTypes signalType }
    let entry : PerformanceEntry :=
      { timestamp := nowMs, eventType := "signal_emission",
        processingTime := processingTime, success := success,
        signalType := some signalType, confidence := confidence }
    let m4 := { m3 with recentPerformance :=
                  boundedPushShift 100 m3.recentPerformance entry }
    let m5 := updateMetricsCalculations m4 nowMs
    mset store agentName m5

/-- One observation fed to the running statistics: a raw event or a signal
emission, with its processing time and success flag. -/
inductive MetricObservation
  | event (eventType : String) (processingTime : ℚ) (success : Bool)
  | emission (signalType : String) (processingTime : ℚ) (success : Bool)
      (confidence : Option ℚ)
  deriving DecidableEq

def MetricObservation.processingTime : MetricObservation → ℚ
  | MetricObservation.event _ t _ => t
  | MetricObservation.emission _ t _ _ => t

def MetricObservation.success : MetricObservation → Bool
  | MetricObservation.event _ _ s => s
  | MetricObservation.emission _ _ s _ => s

/-- Apply one observation to the store through the module's recorders. -/
def applyObservation (store : MetricsStore) (agentName : String) (nowMs : ℚ) :
    MetricObservation → MetricsStore
  | MetricObservation.event eventType t s =>
    recordEventProcessing store agentName eventType t s nowMs
  | MetricObservation.emission signalType t s c =>
    recordSignalEmission store agentName signalType t s c nowMs

/-- Fold a sequence of observations (all recorded at clock `nowMs`) into the
store. -/
def runObservations (store : MetricsStore) (agentName : String) (nowMs : ℚ)
    (obs : List MetricObservation) : MetricsStore :=
  obs.foldl (fun acc o => applyObservation acc agentName nowMs o) store

/-! ## Shared lemmas -/

theorem mget_mset_self (m : List (String × β)) (k : String) (v : β) :
    mget (mset m k v) k = some v := by
  induction m with
  | nil => simp [mget, mset]
  | cons p rest ih =>
    by_cases h : p.1 = k
    · simp [mset, h, mget]
    · simp [mset, h, mget, ih]

theorem mget_mset_ne (m : List (String × β)) (k k' : String) (v : β) (h : k' ≠ k) :
    mget (mset m k v) k' = mget m k' := by
  have h' : ¬ (k = k') := fun hh => h hh.symm
  induction m with
  | nil => simp [mget, mset, h']
  | cons p rest ih =>
    by_cases hp : p.1 = k
    · have hpk' : ¬ (p.1 = k') := by rw [hp]; exact h'
      simp [mset, hp, mget, h', hpk']
    · simp [mset, hp, mget, ih]

theorem length_boundedAppend (cap : ℕ) (xs : List α) (x : α) :
    (boundedAppend cap xs x).length = min (xs.length + 1) cap := by
  by_cases h : cap < xs.length + 1
  · simp [boundedAppend, h]
    omega
  · simp [boundedAppend, h]
    omega

/-- Appending through `boundedAppend` starting from the empty collection
keeps exactly the `cap`-sized suffix of everything appended, in order. -/
theorem foldl_boundedAppend_eq_dropSuffix (cap : ℕ) (items : List α) :
    items.foldl (boundedAppend cap) [] = items.drop (items.length - cap) := by
  induction items using List.reverseRecOn with
  | nil => simp
  | append_singleton l x ih =>
    rw [List.foldl_append, List.foldl_cons, List.foldl_nil, ih]
    by_cases h : cap ≤ l.length
    · have hdrop : l.drop (l.length - cap) ++ [x] = (l ++ [x]).drop (l.length - cap) := by
        rw [List.drop_append_of_le_length (by omega)]
      have hlen : (l.drop (l.length - cap)).length = cap := by
        simp
        omega
      have hcap : cap < (l.drop (l.length - cap) ++ [x]).length := by
        simp [hlen]
      rw [boundedAppend, if_pos (by simpa using hcap)]
      simp only [List.length_append, hlen, List.length_cons, List.length_nil]
      rw [hdrop, List.drop_drop]
      congr 1
      omega
    · have h1 : l.length - cap = 0 := by omega
      have h2 : (l ++ [x]).length - cap = 0 := by simp; omega
      rw [h1, h2, List.drop_zero, List.drop_zero, boundedAppend]
      have hc : ¬ cap < (l ++ [x]).length := by simp; omega
      rw [if_neg hc]

/-- The memory entry built by one `logMemoryEntry` call. -/
def builtMemoryEntry (agentId : String) (c : String × MemoryEntryType × MemoryData) :
    MemoryEntry :=
  { agentId := agentId, timestamp := c.1, type := c.2.1, data := c.2.2 }

/-- Folding `logMemoryEntry` calls for one agent over the store. -/
def runMemoryLogs (st : MemoryStore) (agentId : String)
    (calls : List (String × MemoryEntryType × MemoryData)) : MemoryStore :=
  calls.foldl (fun acc c => (logMemoryEntry acc c.1 agentId c.2.1 c.2.2).1) st

theorem runMemoryLogs_collection (agentId : String)
    (calls : List (String × MemoryEntryType × MemoryData)) (st : MemoryStore) :
    (mget (runMemoryLogs st agentId calls).memoryEntries agentId).getD []
      = (calls.map (builtMemoryEntry agentId)).foldl (boundedAppend 1000)
          ((mget st.memoryEntries agentId).getD []) := by
  induction calls generalizing st with
  | nil => simp [runMemoryLogs]
  | cons c cs ih =>
    have hstep :
        (mget (logMemoryEntry st c.1 agentId c.2.1 c.2.2).1.memoryEntries agentId).getD []
          = boundedAppend 1000 ((mget st.memoryEntries agentId).getD [])
              (builtMemoryEntry agentId c) := by
      simp [logMemoryEntry, mget_mset_self, builtMemoryEntry]
    calc (mget (runMemoryLogs st agentId (c :: cs)).memoryEntries agentId).getD []
        = (mget (runMemoryLogs (logMemoryEntry st c.1 agentId c.2.1 c.2.2).1
            agentId cs).memoryEntries agentId).getD [] := by
          simp [runMemoryLogs]
      _ = (cs.map (builtMemoryEntry agentId)).foldl (boundedAppend 1000)
            ((mget (logMemoryEntry st c.1 agentId c.2.1 c.2.2).1.memoryEntries
              agentId).getD []) := ih _
      _ = ((c :: cs).map (builtMemoryEntry agentId)).foldl (boundedAppend 1000)
            ((mget st.memoryEntries agentId).getD []) := by
          rw [hstep]
          simp

/-! ## Claim theorems -/

/-- C3: for every sequence of `N` appends into a bounded history of capacity
`C`, the resulting collection is exactly the `C`-sized suffix of the
appended items, in insertion order, so it holds `min N C` entries with the
oldest evicted first; instantiated through `logMemoryEntry`, whose
per-source collection (default capacity 1000) is the 1000-suffix of all
entries ever logged for that source. -/
theorem bounded_history_keeps_recent_suffix (cap : ℕ) (items : List α)
    (agentId : String) (calls : List (String × MemoryEntryType × MemoryData)) :
    (items.foldl (boundedAppend cap) [] = items.drop (items.length - cap)
      ∧ (items.foldl (boundedAppend cap) []).length = min items.length cap)
    ∧ (mget (runMemoryLogs emptyMemoryStore agentId calls).memoryEntries agentId).getD []
        = (calls.map (builtMemoryEntry agentId)).drop (calls.length - 1000) := by
  refine ⟨⟨foldl_boundedAppend_eq_dropSuffix cap items, ?_⟩, ?_⟩
  · rw [foldl_boundedAppend_eq_dropSuffix]
    simp
    omega
  · rw [runMemoryLogs_collection]
    simp [emptyMemoryStore, mget]
    rw [foldl_boundedAppend_eq_dropSuffix]
    simp

/-- C8: `initializeAgentState` is idempotent — when a state already exists
for the source id, the call returns that state and the store completely
unchanged (no counter reset, no cleared history collection), whatever
display name the second call passes. -/
theorem initializeAgentState_idempotent (st : MemoryStore) (now agentId agentName : String)
    (s : AgentState) (hs : mget st.agentStates agentId = some s) :
    initializeAgentState st now agentId agentName = (st, s) := by
  simp [initializeAgentState, hs]

/-- A store with one initialized agent that has since emitted one signal:
the concrete instance for the idempotence witness. -/
def sampleStoreA : MemoryStore :=
  (logSignalEmission
    (initializeAgentState emptyMemoryStore "2024-01-01T00:00:00.000Z" "a1" "Agent One").1
    "2024-01-01T00:00:05.000Z" "a1" "risk_alert" "G" true 5 none none).1

/-- The state of `a1` inside `sampleStoreA`: one emitted signal accumulated
after initialization. -/
def sampleStateA : AgentState :=
  { agentId := "a1", agentName := "Agent One", currentStatus := AgentStatus.active,
    lastActivity := "2024-01-01T00:00:05.000Z", totalEventsProcessed := 0,
    totalSignalsEmitted := 1, triggerCount := 0, uptime := 0, metadata := [] }

theorem initializeAgentState_idempotent_witness :
    initializeAgentState sampleStoreA "2024-01-01T00:01:00.000Z" "a1" "Renamed"
      = (sampleStoreA, sampleStateA) :=
  initializeAgentState_idempotent sampleStoreA "2024-01-01T00:01:00.000Z" "a1" "Renamed"
    sampleStateA (by rfl)

/-- C5: updating a never-initialized source id fails loudly with the
`state not initialized` error and leaves the store exactly as it was — no
state entry and no memory entry is created on the thrown path. -/
theorem updateAgentState_uninitialized_fails (st : MemoryStore) (now agentId : String)
    (u : AgentStateUpdates) (h : mget st.agentStates agentId = none) :
    updateAgentStateRun st now agentId u
      = (st, Except.error ("Agent " ++ agentId ++ " state not initialized")) := by
  simp [updateAgentStateRun, updateAgentState, h]

theorem updateAgentState_uninitialized_fails_witness :
    updateAgentStateRun emptyMemoryStore "2024-01-01T00:00:00.000Z" "ghost-agent"
        { currentStatus := some AgentStatus.active }
      = (emptyMemoryStore,
         Except.error ("Agent " ++ "ghost-agent" ++ " state not initialized")) :=
  updateAgentState_uninitialized_fails emptyMemoryStore "2024-01-01T00:00:00.000Z"
    "ghost-agent" { currentStatus := some AgentStatus.active } (by rfl)

/-! Machinery for C4: folding event reports into the memory store. -/

/-- The per-call arguments of one `logEventProcessing` report. -/
structure EventReport where
  now : String
  eventType : String
  eventData : String
  outcome : EventOutcome
  processingTime : ℚ
  deriving DecidableEq

/-- Fold a sequence of event reports for one agent through
`logEventProcessing`. -/
def runEventLogs (st : MemoryStore) (agentId : String) (reports : List EventReport) :
    MemoryStore :=
  reports.foldl
    (fun acc r =>
      (logEventProcessing acc r.now agentId r.eventType r.eventData r.outcome
        r.processingTime).1) st

/-- The store produced by initializing a single agent into a fresh store. -/
def initializedStore (now0 agentId agentName : String) : MemoryStore :=
  (initializeAgentState emptyMemoryStore now0 agentId agentName).1

theorem logEventProcessing_step (st : MemoryStore) (now agentId eventType eventData : String)
    (outcome : EventOutcome) (t : ℚ) (s : AgentState)
    (hs : mget st.agentStates agentId = some s) :
    ∃ s', mget (logEventProcessing st now agentId eventType eventData outcome t).1.agentStates
            agentId = some s'
      ∧ s'.totalEventsProcessed = s.totalEventsProcessed + 1
      ∧ ((mget (logEventProcessing st now agentId eventType eventData outcome
            t).1.eventMemories agentId).getD []).length
          = min (((mget st.eventMemories agentId).getD []).length + 1) 500 := by
  refine ⟨applyStateUpdates s
      { totalEventsProcessed := some (s.totalEventsProcessed + 1),
        triggerCount := some (if outcome = EventOutcome.triggered
          then s.triggerCount + 1 else s.triggerCount),
        currentStatus := some (if outcome = EventOutcome.error
          then AgentStatus.error else AgentStatus.active) } now, ?_, ?_, ?_⟩
  · simp [logEventProcessing, hs, updateAgentStateFound, logMemoryEntry, mget_mset_self]
  · simp [applyStateUpdates]
  · simp [logEventProcessing, hs, updateAgentStateFound, logMemoryEntry, mget_mset_self,
      length_boundedAppend]

theorem runEventLogs_invariant (agentId : String) (reports : List EventReport)
    (st : MemoryStore) (s : AgentState)
    (hs : mget st.agentStates agentId = some s)
    (he : ((mget st.eventMemories agentId).getD []).length ≤ 500) :
    ∃ s', mget (runEventLogs st agentId reports).agentStates agentId = some s'
      ∧ s'.totalEventsProcessed = s.totalEventsProcessed + reports.length
      ∧ ((mget (runEventLogs st agentId reports).eventMemories agentId).getD []).length
          = min (((mget st.eventMemories agentId).getD []).length + reports.length) 500 := by
  induction reports generalizing st s with
  | nil =>
    refine ⟨s, by simp [runEventLogs, hs], by simp [runEventLogs], ?_⟩
    simp [runEventLogs]
    omega
  | cons r rs ih =>
    obtain ⟨s1, hs1, htot1, hlen1⟩ :=
      logEventProcessing_step st r.now agentId r.eventType r.eventData r.outcome
        r.processingTime s hs
    have hrun : runEventLogs st agentId (r :: rs)
        = runEventLogs
            (logEventProcessing st r.now agentId r.eventType r.eventData r.outcome
              r.processingTime).1 agentId rs := by
      simp [runEventLogs]
    obtain ⟨s', hs', htot', hlen'⟩ :=
      ih _ s1 hs1 (by rw [hlen1]; exact min_le_right _ _)
    refine ⟨s', by rw [hrun]; exact hs', ?_, ?_⟩
    · rw [htot', htot1]
      simp only [List.length_cons]
      omega
    · rw [hrun, hlen', hlen1]
      simp only [List.length_cons, Nat.min_def]
      split_ifs <;> omega

/-- C4: running totals survive history eviction and age-based purges —
after 2000 event reports for one initialized source the state's
`totalEventsProcessed` counter is exactly 2000 while the per-source event
history holds only the 500 capacity-limited entries; and `cleanupMemory`
(the age-based purge) never touches `agentStates`, so it can never decrement
a running counter. -/
theorem running_totals_survive_eviction (agentId agentName now0 : String)
    (reports : List EventReport) (h : reports.length = 2000) :
    (∃ s, mget (runEventLogs (initializedStore now0 agentId agentName)
            agentId reports).agentStates agentId = some s
        ∧ s.totalEventsProcessed = 2000)
    ∧ ((mget (runEventLogs (initializedStore now0 agentId agentName)
          agentId reports).eventMemories agentId).getD []).length = 500
    ∧ ∀ (st : MemoryStore) (cutoff : String),
        (cleanupMemory st cutoff).1.agentStates = st.agentStates := by
  have hs0 : mget (initializedStore now0 agentId agentName).agentStates agentId
      = some { agentId := agentId, agentName := agentName,
               currentStatus := AgentStatus.idle, lastActivity := now0,
               totalEventsProcessed := 0, totalSignalsEmitted := 0,
               triggerCount := 0, uptime := 0, metadata := [] } := by
    simp [initializedStore, initializeAgentState, emptyMemoryStore, mget,
      logMemoryEntry, mget_mset_self, mget_mset_ne]
  have he0 : ((mget (initializedStore now0 agentId agentName).eventMemories
      agentId).getD []).length ≤ 500 := by
    simp [initializedStore, initializeAgentState, emptyMemoryStore, mget,
      logMemoryEntry, mget_mset_self, mget_mset_ne]
  obtain ⟨s', hs', htot', hlen'⟩ :=
    runEventLogs_invariant agentId reports (initializedStore now0 agentId agentName) _
      hs0 he0
  refine ⟨⟨s', hs', ?_⟩, ?_, ?_⟩
  · rw [htot', h]
  · rw [hlen', h]
    have : ((mget (initializedStore now0 agentId agentName).eventMemories
        agentId).getD []).length = 0 := by
      simp [initializedStore, initializeAgentState, emptyMemoryStore, mget,
        logMemoryEntry, mget_mset_self, mget_mset_ne]
    rw [this]
    omega
  · intro st cutoff
    simp [cleanupMemory]

/-- A fixed sample event report for the C4 witness. -/
def sampleEventReport : EventReport :=
  { now := "2024-01-01T00:00:01.000Z", eventType := "wallet_activity",
    eventData := "payload", outcome := EventOutcome.triggered, processingTime := 3 }

theorem running_totals_survive_eviction_witness :
    (List.replicate 2000 sampleEventReport).length = 2000
    ∧ ((∃ s, mget (runEventLogs (initializedStore "2024-01-01T00:00:00.000Z" "a1" "Agent One")
            "a1" (List.replicate 2000 sampleEventReport)).agentStates "a1" = some s
        ∧ s.totalEventsProcessed = 2000)
      ∧ ((mget (runEventLogs (initializedStore "2024-01-01T00:00:00.000Z" "a1" "Agent One")
            "a1" (List.replicate 2000 sampleEventReport)).eventMemories "a1").getD []).length
          = 500
      ∧ ∀ (st : MemoryStore) (cutoff : String),
          (cleanupMemory st cutoff).1.agentStates = st.agentStates) :=
  ⟨List.length_replicate 2000 sampleEventReport,
   running_totals_survive_eviction "a1" "Agent One" "2024-01-01T00:00:00.000Z"
     (List.replicate 2000 sampleEventReport)
     (List.length_replicate 2000 sampleEventReport)⟩

/-! ## Streaming lemmas -/

theorem shouldSend_no_filter (s : StreamedSignal) (c : SignalStreamClient)
    (h : c.filter = none) : shouldSendSignalToClient s c = true := by
  simp [shouldSendSignalToClient, h]

theorem shouldSend_mockFilterClient (s : StreamedSignal) (f : SignalStreamFilter) :
    shouldSendSignalToClient s (mockFilterClient f)
      = specFilterMatchesEmptyWildcard f s := by
  simp [shouldSendSignalToClient, mockFilterClient, specFilterMatchesEmptyWildcard,
    passStrEq, passStrEqOpt, passMinConfidence]

theorem mem_broadcast_delivered (signal : StreamedSignal) (now : ℤ)
    (clients : List SignalStreamClient) (c' : SignalStreamClient)
    (h : c' ∈ (broadcastSignalToClients signal now clients).2) : c' ∈ clients := by
  induction clients with
  | nil => simp [broadcastSignalToClients] at h
  | cons c rest ih =>
    by_cases h1 : shouldSendSignalToClient signal c
    · by_cases h2 : c.writeOk
      · simp [broadcastSignalToClients, h1, h2] at h
        rcases h with rfl | hm
        · exact List.mem_cons_self _ _
        · exact List.mem_cons_of_mem _ (ih hm)
      · simp [broadcastSignalToClients, h1, h2] at h
        exact List.mem_cons_of_mem _ (ih h)
    · simp [broadcastSignalToClients, h1] at h
      exact List.mem_cons_of_mem _ (ih h)

theorem mem_broadcast_delivered_matches (signal : StreamedSignal) (now : ℤ)
    (clients : List SignalStreamClient) (c' : SignalStreamClient)
    (h : c' ∈ (broadcastSignalToClients signal now clients).2) :
    shouldSendSignalToClient signal c' = true := by
  induction clients with
  | nil => simp [broadcastSignalToClients] at h
  | cons c rest ih =>
    by_cases h1 : shouldSendSignalToClient signal c
    · by_cases h2 : c.writeOk
      · simp [broadcastSignalToClients, h1, h2] at h
        rcases h with rfl | hm
        · exact h1
        · exact ih hm
      · simp [broadcastSignalToClients, h1, h2] at h
        exact ih h
    · simp [broadcastSignalToClients, h1] at h
      exact ih h

theorem mem_broadcast_kept_id (signal : StreamedSignal) (now : ℤ)
    (clients : List SignalStreamClient) (c' : SignalStreamClient)
    (h : c' ∈ (broadcastSignalToClients signal now clients).1) :
    c'.id ∈ clients.map SignalStreamClient.id := by
  induction clients with
  | nil => simp [broadcastSignalToClients] at h
  | cons c rest ih =>
    by_cases h1 : shouldSendSignalToClient signal c
    · by_cases h2 : c.writeOk
      · simp [broadcastSignalToClients, h1, h2] at h
        rcases h with rfl | hm
        · simp
        · simp [ih hm]
      · simp [broadcastSignalToClients, h1, h2] at h
        simp [ih h]
    · simp [broadcastSignalToClients, h1] at h
      rcases h with rfl | hm
      · simp
      · simp [ih hm]

theorem broadcast_delivers_once (signal : StreamedSignal) (now : ℤ)
    (clients : List SignalStreamClient) (B : SignalStreamClient)
    (hnodup : (clients.map SignalStreamClient.id).Nodup)
    (hB : B ∈ clients) (hBf : B.filter = none) (hBw : B.writeOk = true) :
    (broadcastSignalToClients signal now clients).2.countP
      (fun c => c.id == B.id) = 1 := by
  induction clients with
  | nil => simp at hB
  | cons c rest ih =>
    rw [List.map_cons, List.nodup_cons] at hnodup
    rcases List.mem_cons.mp hB with rfl | hBm
    · have h1 := shouldSend_no_filter signal B hBf
      simp [broadcastSignalToClients, h1, hBw, List.countP_cons]
      intro c' hc'
      have hmm : c'.id ∈ rest.map SignalStreamClient.id :=
        List.mem_map_of_mem _ (mem_broadcast_delivered signal now rest c' hc')
      intro hid
      exact hnodup.1 (hid ▸ hmm)
    · have hne : c.id ≠ B.id := by
        intro hid
        exact hnodup.1 (hid ▸ List.mem_map_of_mem _ hBm)
      have hcount := ih hnodup.2 hBm
      by_cases h1 : shouldSendSignalToClient signal c
      · by_cases h2 : c.writeOk
        · simp [broadcastSignalToClients, h1, h2, List.countP_cons, hcount, hne]
        · simp [broadcastSignalToClients, h1, h2, hcount]
      · simp [broadcastSignalToClients, h1, hcount]

theorem broadcast_removes_failing (signal : StreamedSignal) (now : ℤ)
    (clients : List SignalStreamClient) (A : SignalStreamClient)
    (hnodup : (clients.map SignalStreamClient.id).Nodup)
    (hA : A ∈ clients) (hAf : A.filter = none) (hAw : A.writeOk = false) :
    ∀ c' ∈ (broadcastSignalToClients signal now clients).1, c'.id ≠ A.id := by
  induction clients with
  | nil => simp at hA
  | cons c rest ih =>
    rw [List.map_cons, List.nodup_cons] at hnodup
    intro c' hc'
    rcases List.mem_cons.mp hA with rfl | hAm
    · have h1 := shouldSend_no_filter signal A hAf
      rw [broadcastSignalToClients] at hc'
      simp only [h1, hAw] at hc'
      simp at hc'
      have : c'.id ∈ rest.map SignalStreamClient.id :=
        mem_broadcast_kept_id signal now rest c' hc'
      intro hid
      exact hnodup.1 (hid ▸ this)
    · have hne : c.id ≠ A.id := by
        intro hid
        exact hnodup.1 (hid ▸ List.mem_map_of_mem _ hAm)
      by_cases h1 : shouldSendSignalToClient signal c
      · by_cases h2 : c.writeOk
        · simp [broadcastSignalToClients, h1, h2] at hc'
          rcases hc' with rfl | hm
          · simpa using hne
          · exact ih hnodup.2 hAm c' hm
        · simp [broadcastSignalToClients, h1, h2] at hc'
          exact ih hnodup.2 hAm c' hc'
      · simp [broadcastSignalToClients, h1] at hc'
        rcases hc' with rfl | hm
        · exact hne
        · exact ih hnodup.2 hAm c' hm

theorem broadcast_keeps_updated_ok (signal : StreamedSignal) (now : ℤ)
    (clients : List SignalStreamClient) (B : SignalStreamClient)
    (hB : B ∈ clients) (hBf : B.filter = none) (hBw : B.writeOk = true) :
    { B with lastUpdate := now, signalCount := B.signalCount + 1 }
      ∈ (broadcastSignalToClients signal now clients).1 := by
  induction clients with
  | nil => simp at hB
  | cons c rest ih =>
    rcases List.mem_cons.mp hB with rfl | hBm
    · have h1 := shouldSend_no_filter signal B hBf
      simp [broadcastSignalToClients, h1, hBw]
    · by_cases h1 : shouldSendSignalToClient signal c
      · by_cases h2 : c.writeOk
        · simp [broadcastSignalToClients, h1, h2]
          exact Or.inr (ih hBm)
        · simp [broadcastSignalToClients, h1, h2]
          exact ih hBm
      · simp [broadcastSignalToClients, h1]
        exact Or.inr (ih hBm)

/-- C1 counterexample input: a filter whose `agentName` criterion is present
but equal to the empty string, and a signal with a different agent name. -/
def cexEmptyNameFilter : SignalStreamFilter :=
  { agentName := some "" }

def cexSignalX : StreamedSignal :=
  { id := "s1", agent := "x", type := "t", glyph := "g", hash := "h",
    timestamp := 0, confidence := none, metadata := none }

/-- C1 (counterexample): the claim fails as stated — with the present
criterion `agentName = ""`, the signal with `agent = "x"` does NOT satisfy
every present criterion under exact equality, yet `getRecentSignals` still
returns it, because the source's truthiness check skips empty-string
criteria. -/
theorem getRecentSignals_spec_iff_fails :
    ¬ (cexSignalX ∈ getRecentSignals [cexSignalX] (some cexEmptyNameFilter) none
        ↔ specFilterMatches cexEmptyNameFilter cexSignalX = true) := by
  decide

/-- C1 (amended): membership in `getRecentSignals` under a filter is exactly
AND-of-present-criteria semantics, with the single amendment that a present
string criterion equal to the empty string is also a wildcard (absent
criteria remain wildcards; `minConfidence` is an inclusive lower bound on a
present confidence and is enforced whenever defined, including `0`). -/
theorem getRecentSignals_filter_characterization (stored : List StreamedSignal)
    (f : SignalStreamFilter) (R : StreamedSignal) :
    R ∈ getRecentSignals stored (some f) none
      ↔ R ∈ stored ∧ specFilterMatchesEmptyWildcard f R = true := by
  unfold getRecentSignals
  rw [mem_sortByDescKey, List.mem_filter, shouldSend_mockFilterClient]

/-- C10: a filter with a defined `minConfidence` never matches a signal
whose confidence field is absent — such a signal is never returned by
`getRecentSignals` under that filter, whatever the buffer and limit. -/
theorem absent_confidence_never_matches (s : StreamedSignal) (f : SignalStreamFilter)
    (m : ℚ) (hc : s.confidence = none) (hm : f.minConfidence = some m) :
    (∀ (stored : List StreamedSignal) (limit : Option ℕ),
        s ∉ getRecentSignals stored (some f) limit)
    ∧ (∀ (clients : List SignalStreamClient) (now : ℤ)
          (c : SignalStreamClient),
        c ∈ (broadcastSignalToClients s now clients).2 → c.filter ≠ some f) := by
  have hfail : ∀ c : SignalStreamClient, c.filter = some f →
      shouldSendSignalToClient s c = false := by
    intro c hcf
    simp [shouldSendSignalToClient, hcf, passMinConfidence, hm, hc]
  constructor
  · intro stored limit hmem
    have hnot : s ∉ stored.filter
        (fun x => shouldSendSignalToClient x (mockFilterClient f)) := by
      intro hin
      have := (List.mem_filter.mp hin).2
      rw [hfail (mockFilterClient f) rfl] at this
      simp at this
    have hsub : s ∈ sortByDescKey StreamedSignal.timestamp
        (stored.filter (fun x => shouldSendSignalToClient x (mockFilterClient f))) := by
      unfold getRecentSignals at hmem
      rcases limit with _ | n
      · exact hmem
      · by_cases hz : n = 0
        · simpa [hz] using hmem
        · simp only [if_neg hz] at hmem
          exact List.take_subset n _ hmem
    rw [mem_sortByDescKey] at hsub
    exact hnot hsub
  · intro clients now c hdel hcf
    have := mem_broadcast_delivered_matches s now clients c hdel
    rw [hfail c hcf] at this
    simp at this

def cexNoConfidenceSignal : StreamedSignal :=
  { id := "s2", agent := "y", type := "t", glyph := "g", hash := "h",
    timestamp := 0, confidence := none, metadata := none }

def cexMinConfidenceFilter : SignalStreamFilter :=
  { minConfidence := some (9 / 10) }

theorem absent_confidence_never_matches_witness :
    cexNoConfidenceSignal ∉
      getRecentSignals [cexNoConfidenceSignal] (some cexMinConfidenceFilter) none :=
  (absent_confidence_never_matches cexNoConfidenceSignal cexMinConfidenceFilter
    (9 / 10) rfl rfl).1 [cexNoConfidenceSignal] none

/-- C2: one publish through `emitSignalToStream`, with subscriber `A` whose
sink write always throws and subscriber `B` whose sink write always
succeeds, both unfiltered: the record is delivered to `B` exactly once,
`A` is removed from the registry, and `B` survives with its push counter
incremented.  The per-subscriber try/catch in the source absorbs the write
failure, which is what makes the modelled publish a total function — the
publish call itself never throws. -/
theorem publish_isolates_failing_subscriber (st : SignalStreamState)
    (A B : SignalStreamClient) (freshId : String) (sig : SignalInput) (now : ℤ)
    (hnodup : (st.signalStreamClients.map SignalStreamClient.id).Nodup)
    (hA : A ∈ st.signalStreamClients) (hB : B ∈ st.signalStreamClients)
    (hAf : A.filter = none) (hBf : B.filter = none)
    (hAw : A.writeOk = false) (hBw : B.writeOk = true) :
    ((emitSignalToStream st freshId sig now).2.2.countP (fun c => c.id == B.id) = 1)
    ∧ (∀ c ∈ (emitSignalToStream st freshId sig now).1.signalStreamClients,
        c.id ≠ A.id)
    ∧ ({ B with lastUpdate := now, signalCount := B.signalCount + 1 }
        ∈ (emitSignalToStream st freshId sig now).1.signalStreamClients) := by
  refine ⟨?_, ?_, ?_⟩
  · simpa [emitSignalToStream] using
      broadcast_delivers_once _ now st.signalStreamClients B hnodup hB hBf hBw
  · simpa [emitSignalToStream] using
      broadcast_removes_failing _ now st.signalStreamClients A hnodup hA hAf hAw
  · simpa [emitSignalToStream] using
      broadcast_keeps_updated_ok _ now st.signalStreamClients B hB hBf hBw

def cexClientA : SignalStreamClient :=
  { id := "A", writeOk := false, filter := none, lastUpdate := 0, signalCount := 0 }

def cexClientB : SignalStreamClient :=
  { id := "B", writeOk := true, filter := none, lastUpdate := 0, signalCount := 0 }

def cexStreamState : SignalStreamState :=
  { recentSignals := [], signalStreamClients := [cexClientA, cexClientB] }

def cexSignalInput : SignalInput :=
  { agent := "y", type := "t", glyph := "g", hash := "h", timestamp := 1,
    confidence := none, metadata := none }

theorem publish_isolates_failing_subscriber_witness :
    ((emitSignalToStream cexStreamState "id1" cexSignalInput 7).2.2.countP
        (fun c => c.id == cexClientB.id) = 1)
    ∧ (∀ c ∈ (emitSignalToStream cexStreamState "id1" cexSignalInput
          7).1.signalStreamClients, c.id ≠ cexClientA.id)
    ∧ (({ id := "B", writeOk := true, filter := none, lastUpdate := 7,
          signalCount := 1 } : SignalStreamClient)
        ∈ (emitSignalToStream cexStreamState "id1" cexSignalInput
            7).1.signalStreamClients) :=
  publish_isolates_failing_subscriber cexStreamState cexClientA cexClientB "id1"
    cexSignalInput 7 (by decide) (by decide) (by decide) (by decide) (by decide)
    (by decide) (by decide)

/-! ## Metrics lemmas -/

theorem initializeAgentMetrics_of_mem (store : MetricsStore) (agentName : String)
    (nowMs : ℚ) (m : AgentMetrics) (hm : mget store agentName = some m) :
    initializeAgentMetrics store agentName nowMs = store := by
  simp [initializeAgentMetrics, hm]

/-- `updateProcessingTimeStats` decomposed: it first updates min/max (leaving
every other field alone) and then overwrites only the average. -/
theorem upts_decompose (m : AgentMetrics) (t : ℚ) :
    ∃ m2 : AgentMetrics,
      updateProcessingTimeStats m t
        = (if m2.totalEvents + m2.totalSignals = 1
           then { m2 with averageProcessingTime := t }
           else { m2 with averageProcessingTime :=
             (m2.averageProcessingTime * (((m2.totalEvents + m2.totalSignals : ℕ) : ℚ) - 1)
               + t) / ((m2.totalEvents + m2.totalSignals : ℕ) : ℚ) })
      ∧ m2.totalEvents = m.totalEvents
      ∧ m2.totalSignals = m.totalSignals
      ∧ m2.averageProcessingTime = m.averageProcessingTime
      ∧ m2.successRate = m.successRate
      ∧ m2.minProcessingTime
          = (if (match m.minProcessingTime with
                 | none => true
                 | some mn => decide (t < mn)) = true
             then some t else m.minProcessingTime) := by
  unfold updateProcessingTimeStats
  dsimp only
  refine ⟨_, rfl, ?_, ?_, ?_, ?_, ?_⟩ <;> split_ifs <;> rfl

theorem upts_totalEvents (m : AgentMetrics) (t : ℚ) :
    (updateProcessingTimeStats m t).totalEvents = m.totalEvents := by
  obtain ⟨m2, heq, hte, hts, -, -, -⟩ := upts_decompose m t
  rw [heq]
  split_ifs <;> simp [hte]

theorem upts_totalSignals (m : AgentMetrics) (t : ℚ) :
    (updateProcessingTimeStats m t).totalSignals = m.totalSignals := by
  obtain ⟨m2, heq, hte, hts, -, -, -⟩ := upts_decompose m t
  rw [heq]
  split_ifs <;> simp [hts]

theorem upts_successRate (m : AgentMetrics) (t : ℚ) :
    (updateProcessingTimeStats m t).successRate = m.successRate := by
  obtain ⟨m2, heq, -, -, -, hsr, -⟩ := upts_decompose m t
  rw [heq]
  split_ifs <;> simp [hsr]

theorem upts_min_of_none (m : AgentMetrics) (t : ℚ) (h : m.minProcessingTime = none) :
    (updateProcessingTimeStats m t).minProcessingTime = some t := by
  obtain ⟨m2, heq, -, -, -, -, hmin⟩ := upts_decompose m t
  rw [heq]
  split_ifs <;> simp [hmin, h]

theorem upts_avg_of_totals_one (m : AgentMetrics) (t : ℚ)
    (h : m.totalEvents + m.totalSignals = 1) :
    (updateProcessingTimeStats m t).averageProcessingTime = t := by
  obtain ⟨m2, heq, hte, hts, -, -, -⟩ := upts_decompose m t
  rw [heq]
  rw [if_pos (by rw [hte, hts]; exact h)]

/-- The incremental-mean step as an exact product identity: after the
update, `average * n = old-average * (n - 1) + t`, where `n` is the
already-incremented combined event+signal count. -/
theorem upts_avg_mul (m : AgentMetrics) (t : ℚ) (n : ℕ)
    (h : m.totalEvents + m.totalSignals = n + 1) :
    (updateProcessingTimeStats m t).averageProcessingTime * ((n : ℚ) + 1)
      = m.averageProcessingTime * (n : ℚ) + t := by
  obtain ⟨m2, heq, hte, hts, havg, -, -⟩ := upts_decompose m t
  have htot : m2.totalEvents + m2.totalSignals = n + 1 := by rw [hte, hts]; exact h
  rw [heq]
  by_cases h1 : m2.totalEvents + m2.totalSignals = 1
  · rw [if_pos h1]
    have hn : n = 0 := by omega
    subst hn
    simp
  · rw [if_neg h1]
    dsimp only
    rw [htot, havg]
    push_cast
    have hne : ((n : ℚ) + 1) ≠ 0 := by positivity
    rw [div_mul_cancel₀ _ hne]
    ring

theorem umc_totalEvents (m : AgentMetrics) (nowMs : ℚ) :
    (updateMetricsCalculations m nowMs).totalEvents = m.totalEvents := by
  unfold updateMetricsCalculations
  dsimp only
  split_ifs <;> rfl

theorem umc_totalSignals (m : AgentMetrics) (nowMs : ℚ) :
    (updateMetricsCalculations m nowMs).totalSignals = m.totalSignals := by
  unfold updateMetricsCalculations
  dsimp only
  split_ifs <;> rfl

theorem umc_avg (m : AgentMetrics) (nowMs : ℚ) :
    (updateMetricsCalculations m nowMs).averageProcessingTime
      = m.averageProcessingTime := by
  unfold updateMetricsCalculations
  dsimp only
  split_ifs <;> rfl

theorem umc_successRate_of_no_signals (m : AgentMetrics) (nowMs : ℚ)
    (h : m.totalSignals = 0) :
    (updateMetricsCalculations m nowMs).successRate = m.successRate := by
  unfold updateMetricsCalculations
  dsimp only
  split_ifs <;> simp_all

theorem umc_min_of_some (m : AgentMetrics) (nowMs : ℚ)
    (h : m.minProcessingTime ≠ none) :
    (updateMetricsCalculations m nowMs).minProcessingTime = m.minProcessingTime := by
  unfold updateMetricsCalculations
  dsimp only
  split_ifs <;> simp_all

theorem recordEvent_success_step (store : MetricsStore) (agentName eventType : String)
    (t nowMs : ℚ) (m : AgentMetrics) (hm : mget store agentName = some m) :
    ∃ m', mget (recordEventProcessing store agentName eventType t true nowMs) agentName
        = some m'
      ∧ m'.totalEvents + m'.totalSignals = m.totalEvents + m.totalSignals + 1
      ∧ m'.averageProcessingTime * ((m.totalEvents + m.totalSignals + 1 : ℕ) : ℚ)
          = m.averageProcessingTime * ((m.totalEvents + m.totalSignals : ℕ) : ℚ) + t := by
  have h1 : ∃ m1 : AgentMetrics,
      recordEventProcessing store agentName eventType t true nowMs
        = mset store agentName
            (updateMetricsCalculations
              { updateProcessingTimeStats m1 t with
                recentPerformance := boundedPushShift 100
                  (updateProcessingTimeStats m1 t).recentPerformance
                  { timestamp := nowMs, eventType := eventType, processingTime := t,
                    success := true, signalType := none, confidence := none } } nowMs)
      ∧ m1.totalEvents = m.totalEvents + 1
      ∧ m1.totalSignals = m.totalSignals
      ∧ m1.averageProcessingTime = m.averageProcessingTime := by
    refine ⟨{ m with totalEvents := m.totalEvents + 1, lastActivity := some nowMs },
      ?_, by simp, by simp, by simp⟩
    simp only [recordEventProcessing, initializeAgentMetrics_of_mem _ _ _ _ hm, hm,
      ite_true]
  obtain ⟨m1, heq, h1e, h1s, h1a⟩ := h1
  have h1tot : m1.totalEvents + m1.totalSignals = m.totalEvents + m.totalSignals + 1 := by
    omega
  rw [heq]
  refine ⟨_, mget_mset_self _ _ _, ?_, ?_⟩
  · simp [umc_totalEvents, umc_totalSignals, upts_totalEvents, upts_totalSignals,
      h1e, h1s]
    omega
  · rw [umc_avg]
    have hstep := upts_avg_mul m1 t (m.totalEvents + m.totalSignals) h1tot
    rw [h1a] at hstep
    dsimp only
    push_cast at hstep ⊢
    linear_combination hstep

theorem recordEmission_success_step (store : MetricsStore) (agentName signalType : String)
    (t nowMs : ℚ) (confidence : Option ℚ) (m : AgentMetrics)
    (hm : mget store agentName = some m) :
    ∃ m', mget (recordSignalEmission store agentName signalType t true confidence nowMs)
          agentName = some m'
      ∧ m'.totalEvents + m'.totalSignals = m.totalEvents + m.totalSignals + 1
      ∧ m'.averageProcessingTime * ((m.totalEvents + m.totalSignals + 1 : ℕ) : ℚ)
          = m.averageProcessingTime * ((m.totalEvents + m.totalSignals : ℕ) : ℚ) + t := by
  have h1 : ∃ m1 : AgentMetrics,
      recordSignalEmission store agentName signalType t true confidence nowMs
        = mset store agentName
            (updateMetricsCalculations
              { updateProcessingTimeStats m1 t with
                signalTypes :=
                  bumpSignalType (updateProcessingTimeStats m1 t).signalTypes signalType,
                recentPerformance := boundedPushShift 100
                  (updateProcessingTimeStats m1 t).recentPerformance
                  { timestamp := nowMs, eventType := "signal_emission",
                    processingTime := t, success := true,
                    signalType := some signalType, confidence := confidence } } nowMs)
      ∧ m1.totalEvents = m.totalEvents
      ∧ m1.totalSignals = m.totalSignals + 1
      ∧ m1.averageProcessingTime = m.averageProcessingTime := by
    refine ⟨{ m with totalSignals := m.totalSignals + 1, lastActivity := some nowMs, successfulSignals := m.successfulSignals + 1 }, ?_, by simp, by simp, by simp⟩
    simp only [recordSignalEmission, initializeAgentMetrics_of_mem _ _ _ _ hm, hm,
      ite_true]
  obtain ⟨m1, heq, h1e, h1s, h1a⟩ := h1
  have h1tot : m1.totalEvents + m1.totalSignals = m.totalEvents + m.totalSignals + 1 := by
    omega
  rw [heq]
  refine ⟨_, mget_mset_self _ _ _, ?_, ?_⟩
  · simp [umc_totalEvents, umc_totalSignals, upts_totalEvents, upts_totalSignals,
      h1e, h1s]
    omega
  · rw [umc_avg]
    have hstep := upts_avg_mul m1 t (m.totalEvents + m.totalSignals) h1tot
    rw [h1a] at hstep
    dsimp only
    push_cast at hstep ⊢
    linear_combination hstep

theorem applyObservation_success_step (store : MetricsStore) (agentName : String)
    (nowMs : ℚ) (o : MetricObservation) (m : AgentMetrics)
    (hm : mget store agentName = some m) (hsucc : o.success = true) :
    ∃ m', mget (applyObservation store agentName nowMs o) agentName = some m'
      ∧ m'.totalEvents + m'.totalSignals = m.totalEvents + m.totalSignals + 1
      ∧ m'.averageProcessingTime * ((m.totalEvents + m.totalSignals + 1 : ℕ) : ℚ)
          = m.averageProcessingTime * ((m.totalEvents + m.totalSignals : ℕ) : ℚ)
            + o.processingTime := by
  cases o with
  | event eventType t s =>
    cases s with
    | true =>
      exact recordEvent_success_step store agentName eventType t nowMs m hm
    | false => simp [MetricObservation.success] at hsucc
  | emission signalType t s c =>
    cases s with
    | true =>
      exact recordEmission_success_step store agentName signalType t nowMs c m hm
    | false => simp [MetricObservation.success] at hsucc

theorem runObservations_success_invariant (agentName : String) (nowMs : ℚ)
    (obs : List MetricObservation) (store : MetricsStore) (m : AgentMetrics)
    (hm : mget store agentName = some m)
    (hall : ∀ o ∈ obs, o.success = true) :
    ∃ m', mget (runObservations store agentName nowMs obs) agentName = some m'
      ∧ m'.totalEvents + m'.totalSignals = m.totalEvents + m.totalSignals + obs.length
      ∧ m'.averageProcessingTime * ((m.totalEvents + m.totalSignals + obs.length : ℕ) : ℚ)
          = m.averageProcessingTime * ((m.totalEvents + m.totalSignals : ℕ) : ℚ)
            + (obs.map MetricObservation.processingTime).sum := by
  induction obs generalizing store m with
  | nil =>
    refine ⟨m, by simpa [runObservations] using hm, by simp, by simp⟩
  | cons o os ih =>
    obtain ⟨m1, hm1, htot1, havg1⟩ :=
      applyObservation_success_step store agentName nowMs o m
        hm (hall o (List.mem_cons_self o os))
    have hrun : runObservations store agentName nowMs (o :: os)
        = runObservations (applyObservation store agentName nowMs o) agentName nowMs os := by
      simp [runObservations]
    obtain ⟨m', hm', htot', havg'⟩ :=
      ih _ m1 hm1 (fun x hx => hall x (List.mem_cons_of_mem o hx))
    rw [htot1] at htot' havg'
    refine ⟨m', by rw [hrun]; exact hm', ?_, ?_⟩
    · simp only [List.length_cons]
      omega
    · have harg : m.totalEvents + m.totalSignals + (o :: os).length
          = m.totalEvents + m.totalSignals + 1 + os.length := by
        simp only [List.length_cons]
        omega
      rw [harg]
      simp only [List.map_cons, List.sum_cons]
      linear_combination havg' + havg1

theorem mget_initializeAgentMetrics_nil (agentName : String) (nowMs : ℚ) :
    mget (initializeAgentMetrics [] agentName nowMs) agentName
      = some (freshAgentMetrics agentName nowMs) := by
  simp [initializeAgentMetrics, mget, mset]

/-- C6 (counterexample): the claim fails as stated — interleave one failed
event (processing time 10) and one successful event (processing time 30);
the failed observation is not folded into the mean but still inflates the
combined count `n`, so the reported average is 15, which is neither the
mean of all recorded times (20) nor the mean of the successfully recorded
times (30). -/
def cexMeanStore : MetricsStore :=
  runObservations [] "a" 0
    [MetricObservation.event "e" 10 false, MetricObservation.event "e" 30 true]

theorem mean_claim_fails_with_failures :
    (mget cexMeanStore "a").map AgentMetrics.averageProcessingTime = some 15
    ∧ (15 : ℚ) ≠ ((10 : ℚ) + 30) / 2
    ∧ (15 : ℚ) ≠ 30 := by
  refine ⟨?_, by norm_num, by norm_num⟩
  norm_num [cexMeanStore, runObservations, applyObservation, recordEventProcessing,
    initializeAgentMetrics, freshAgentMetrics, mget, mset, updateProcessingTimeStats,
    updateMetricsCalculations, boundedPushShift]

/-- C6 (amended): for a sequence of *successful* observations — events or
signal emissions, in any order — the reported `averageProcessingTime` is
exactly the arithmetic mean of the recorded processing times, the
incremental update using the combined event+signal count as `n`.  (A failed
observation breaks this: it inflates `n` without contributing its sample,
as the counterexample shows.) -/
theorem incremental_mean_correct_for_successes (agentName : String) (nowMs : ℚ)
    (obs : List MetricObservation)
    (hall : ∀ o ∈ obs, o.success = true) (hne : obs ≠ []) :
    ∃ m', mget (runObservations (initializeAgentMetrics [] agentName nowMs)
          agentName nowMs obs) agentName = some m'
      ∧ m'.averageProcessingTime
          = (obs.map MetricObservation.processingTime).sum / (obs.length : ℚ) := by
  obtain ⟨m', hm', htot', havg'⟩ :=
    runObservations_success_invariant agentName nowMs obs _ _
      (mget_initializeAgentMetrics_nil agentName nowMs) hall
  refine ⟨m', hm', ?_⟩
  simp [freshAgentMetrics] at havg'
  have hlen : ((obs.length : ℚ)) ≠ 0 := by
    simpa using fun h0 => hne (List.length_eq_zero.mp h0)
  rw [eq_div_iff hlen]
  exact havg'

def cexSuccessObs : List MetricObservation :=
  [MetricObservation.event "evt" 10 true, MetricObservation.emission "sig" 30 true none]

theorem incremental_mean_correct_for_successes_witness :
    ∃ m', mget (runObservations (initializeAgentMetrics [] "a" 0) "a" 0 cexSuccessObs)
        "a" = some m'
      ∧ m'.averageProcessingTime
          = (cexSuccessObs.map MetricObservation.processingTime).sum
              / (cexSuccessObs.length : ℚ) :=
  incremental_mean_correct_for_successes "a" 0 cexSuccessObs
    (by intro o ho; fin_cases ho <;> rfl)
    (by simp [cexSuccessObs])

/-! Machinery for C7: event-only recording never touches the signal-derived
success rate. -/

/-- The per-call arguments of one `recordEventProcessing` call. -/
structure EventCall where
  eventType : String
  processingTime : ℚ
  success : Bool
  nowMs : ℚ
  deriving DecidableEq

def runEventRecords (store : MetricsStore) (agentName : String)
    (calls : List EventCall) : MetricsStore :=
  calls.foldl
    (fun acc c =>
      recordEventProcessing acc agentName c.eventType c.processingTime c.success c.nowMs)
    store

theorem recordEvent_signals_preserved (store : MetricsStore)
    (agentName eventType : String) (t nowMs : ℚ) (s : Bool) (m : AgentMetrics)
    (hm : mget store agentName = some m) (h0 : m.totalSignals = 0) :
    ∃ m', mget (recordEventProcessing store agentName eventType t s nowMs) agentName
        = some m'
      ∧ m'.totalSignals = 0 ∧ m'.successRate = m.successRate := by
  cases s with
  | true =>
    have h1 : ∃ m1 : AgentMetrics,
        recordEventProcessing store agentName eventType t true nowMs
          = mset store agentName
              (updateMetricsCalculations
                { updateProcessingTimeStats m1 t with
                  recentPerformance := boundedPushShift 100
                    (updateProcessingTimeStats m1 t).recentPerformance
                    { timestamp := nowMs, eventType := eventType, processingTime := t,
                      success := true, signalType := none, confidence := none } } nowMs)
        ∧ m1.totalSignals = m.totalSignals
        ∧ m1.successRate = m.successRate := by
      refine ⟨{ m with totalEvents := m.totalEvents + 1, lastActivity := some nowMs },
        ?_, by simp, by simp⟩
      simp only [recordEventProcessing, initializeAgentMetrics_of_mem _ _ _ _ hm, hm,
        ite_true]
    obtain ⟨m1, heq, h1s, h1r⟩ := h1
    rw [heq]
    refine ⟨_, mget_mset_self _ _ _, ?_, ?_⟩
    · rw [umc_totalSignals]
      dsimp only
      rw [upts_totalSignals, h1s, h0]
    · rw [umc_successRate_of_no_signals _ _ (by dsimp only; rw [upts_totalSignals, h1s, h0])]
      dsimp only
      rw [upts_successRate, h1r]
  | false =>
    have h1 : recordEventProcessing store agentName eventType t false nowMs
        = mset store agentName
            (updateMetricsCalculations
              { m with
                totalEvents := m.totalEvents + 1,
                lastActivity := some nowMs,
                errorCount := m.errorCount + 1,
                recentPerformance := boundedPushShift 100 m.recentPerformance
                  { timestamp := nowMs, eventType := eventType, processingTime := t,
                    success := false, signalType := none, confidence := none } } nowMs) := by
      simp only [recordEventProcessing, initializeAgentMetrics_of_mem _ _ _ _ hm, hm]
      rfl
    rw [h1]
    refine ⟨_, mget_mset_self _ _ _, ?_, ?_⟩
    · rw [umc_totalSignals]
      simp [h0]
    · rw [umc_successRate_of_no_signals _ _ (by simp [h0])]

theorem runEventRecords_no_signals (agentName : String) (calls : List EventCall)
    (store : MetricsStore) (m : AgentMetrics)
    (hm : mget store agentName = some m) (h0 : m.totalSignals = 0) :
    ∃ m', mget (runEventRecords store agentName calls) agentName = some m'
      ∧ m'.totalSignals = 0 ∧ m'.successRate = m.successRate := by
  induction calls generalizing store m with
  | nil => exact ⟨m, by simpa [runEventRecords] using hm, h0, rfl⟩
  | cons c cs ih =>
    obtain ⟨m1, hm1, h1s, h1r⟩ :=
      recordEvent_signals_preserved store agentName c.eventType c.processingTime
        c.nowMs c.success m hm h0
    have hrun : runEventRecords store agentName (c :: cs)
        = runEventRecords
            (recordEventProcessing store agentName c.eventType c.processingTime
              c.success c.nowMs) agentName cs := by
      simp [runEventRecords]
    obtain ⟨m', hm', h's, h'r⟩ := ih _ m1 hm1 h1s
    exact ⟨m', by rw [hrun]; exact hm', h's, by rw [h'r, h1r]⟩

/-- C7 (counterexample): the claim fails as stated for the metrics module —
after one successful raw event and zero signal emissions,
`AgentMetrics.successRate` is `0` (its initial value), not the claimed
optimistic `1.0`. -/
def cexRateStore : MetricsStore := recordEventProcessing [] "a" "e" 10 true 0

theorem successRate_zero_counterexample :
    (mget cexRateStore "a").map AgentMetrics.totalSignals = some 0
    ∧ (mget cexRateStore "a").map AgentMetrics.successRate = some 0
    ∧ (0 : ℚ) ≠ 1 := by
  refine ⟨?_, ?_, by norm_num⟩ <;>
    (norm_num [cexRateStore, recordEventProcessing, initializeAgentMetrics,
      freshAgentMetrics, mget, mset, updateProcessingTimeStats,
      updateMetricsCalculations, boundedPushShift]
     all_goals simp)

/-- C7 (amended): the optimistic `1.0` default lives only in the memory
snapshot — `generateMemorySnapshot` reports `statistics.successRate = 1.0`
whenever the source has no recorded signal emissions, however many events
were processed; the metrics module's `AgentMetrics.successRate`, by
contrast, keeps its initial `0` through any sequence of raw event
recordings. -/
theorem successRate_default_split :
    (∀ (st : MemoryStore) (now agentId : String) (state : AgentState),
        mget st.agentStates agentId = some state →
        (mget st.signalMemories agentId).getD [] = [] →
        (generateMemorySnapshot st now agentId).map
          (fun snap => snap.statistics.successRate) = some 1)
    ∧ (∀ (agentName : String) (nowMs : ℚ) (calls : List EventCall),
        ∃ m', mget (runEventRecords (initializeAgentMetrics [] agentName nowMs)
              agentName calls) agentName = some m'
          ∧ m'.totalSignals = 0 ∧ m'.successRate = 0) := by
  constructor
  · intro st now agentId state hstate hsig
    simp only [generateMemorySnapshot, hstate, hsig, Option.map_some]
    norm_num [lastN, jsRound2]
  · intro agentName nowMs calls
    obtain ⟨m', hm', h's, h'r⟩ :=
      runEventRecords_no_signals agentName calls _ _
        (mget_initializeAgentMetrics_nil agentName nowMs)
        (by simp [freshAgentMetrics])
    exact ⟨m', hm', h's, by rw [h'r]; simp [freshAgentMetrics]⟩

theorem successRate_default_split_witness :
    (generateMemorySnapshot (initializedStore "2024-01-01T00:00:00.000Z" "a1" "Agent One")
        "2024-01-02T00:00:00.000Z" "a1").map
      (fun snap => snap.statistics.successRate) = some 1 :=
  successRate_default_split.1
    (initializedStore "2024-01-01T00:00:00.000Z" "a1" "Agent One")
    "2024-01-02T00:00:00.000Z" "a1"
    { agentId := "a1", agentName := "Agent One", currentStatus := AgentStatus.idle,
      lastActivity := "2024-01-01T00:00:00.000Z", totalEventsProcessed := 0,
      totalSignalsEmitted := 0, triggerCount := 0, uptime := 0, metadata := [] }
    (by rfl) (by rfl)

/-- C9 (counterexample): the claim fails as stated — nothing clamps a
negative processing time; one successful event recorded with time `-5`
drives both `minProcessingTime` and `averageProcessingTime` to `-5`. -/
def cexNegStore : MetricsStore := recordEventProcessing [] "a" "e" (-5) true 0

theorem negative_time_counterexample :
    (mget cexNegStore "a").map AgentMetrics.minProcessingTime = some (some (-5))
    ∧ (mget cexNegStore "a").map AgentMetrics.averageProcessingTime = some (-5)
    ∧ (-5 : ℚ) < 0 := by
  refine ⟨?_, ?_, by norm_num⟩ <;>
    (norm_num [cexNegStore, recordEventProcessing, initializeAgentMetrics,
      freshAgentMetrics, mget, mset, updateProcessingTimeStats,
      updateMetricsCalculations, boundedPushShift]
     all_goals simp)

/-- C9 (amended): processing times are *not* defensively clamped — a
negative processing time recorded as a successful event on a fresh source
propagates as-is into both `minProcessingTime` and `averageProcessingTime`,
so those statistics do reflect the negative sample. -/
theorem negative_times_propagate (agentName eventType : String) (t nowMs : ℚ)
    (h : t < 0) :
    ∃ m', mget (recordEventProcessing [] agentName eventType t true nowMs) agentName
        = some m'
      ∧ m'.minProcessingTime = some t
      ∧ m'.averageProcessingTime = t
      ∧ t < 0 := by
  have h1 : ∃ m1 : AgentMetrics,
      recordEventProcessing [] agentName eventType t true nowMs
        = mset (initializeAgentMetrics [] agentName nowMs) agentName
            (updateMetricsCalculations
              { updateProcessingTimeStats m1 t with
                recentPerformance := boundedPushShift 100
                  (updateProcessingTimeStats m1 t).recentPerformance
                  { timestamp := nowMs, eventType := eventType, processingTime := t,
                    success := true, signalType := none, confidence := none } } nowMs)
      ∧ m1.totalEvents + m1.totalSignals = 1
      ∧ m1.minProcessingTime = none := by
    refine ⟨{ freshAgentMetrics agentName nowMs with
        totalEvents := (freshAgentMetrics agentName nowMs).totalEvents + 1,
        lastActivity := some nowMs },
      ?_, by simp [freshAgentMetrics], by simp [freshAgentMetrics]⟩
    simp only [recordEventProcessing, mget_initializeAgentMetrics_nil, ite_true]
  obtain ⟨m1, heq, h1tot, h1min⟩ := h1
  rw [heq]
  refine ⟨_, mget_mset_self _ _ _, ?_, ?_, h⟩
  · rw [umc_min_of_some _ _ (by dsimp only; rw [upts_min_of_none _ _ h1min]; simp)]
    dsimp only
    rw [upts_min_of_none _ _ h1min]
  · rw [umc_avg]
    dsimp only
    rw [upts_avg_of_totals_one _ _ h1tot]

theorem negative_times_propagate_witness :
    ∃ m', mget (recordEventProcessing [] "a" "e" (-5) true 0) "a" = some m'
      ∧ m'.minProcessingTime = some (-5)
      ∧ m'.averageProcessingTime = -5
      ∧ (-5 : ℚ) < 0 :=
  negative_times_propagate "a" "e" (-5) 0 (by norm_num)

end EremosSwarm
